import Mathlib

/-!
Verification of the log-ingestion and event-extraction core of
`learn-python-server` (Python/Django).  The definitions below are a shallow
embedding of the source files:

* `learn_python_server/utils.py` (`is_gzip`, `num_lines`, `calculate_sha256`,
  `headers_match`),
* `learn_python_server/api/serializers.py` (`LogFileSerializer.create`,
  `LogFileSerializer.compress_file`),
* `learn_python_server/models.py` (`LogFile.LogFileType`,
  `LogFile.LogIterator`, `LogFile.LogFileType.unmarshall`,
  `LogEvent.LogLevel`),
* `learn_python_server/management/commands/process_logs.py`
  (`Command.handle`, `Command.process_log`).

Bytes are modelled as `List Nat` (each entry one byte value), text as
`String`/`List Char`, machine integers do not overflow in any modelled path.
-/

deriving instance DecidableEq for Except

/-! ## Bytes, gzip framing, content hash (utils.py, compress_file) -/

/-- The two gzip magic bytes `1F 8B` checked by `utils.is_gzip`. -/
def gzipMagic : List Nat := [31, 139]

/-- Model of `utils.is_gzip`: the file's first two bytes equal `1F 8B`.
(`file.read(2)` on a shorter file returns fewer bytes, which then compare
unequal, so `List.take` is faithful.) -/
def is_gzip (b : List Nat) : Bool := b.take 2 == gzipMagic

/-- Little-endian 4-byte encoding of the MTIME field that `gzip.GzipFile`
writes into the gzip header.  CPython's `GzipFile._write_gzip_header` stores
`int(time.time())` here when no explicit `mtime` is given, which is the case
in `LogFileSerializer.compress_file`. -/
def mtimeLE (t : Nat) : List Nat :=
  [t % 256, t / 256 % 256, t / 65536 % 256, t / 16777216 % 256]

/-- Model of `LogFileSerializer.compress_file` at the byte level: the gzip
member written by `gzip.GzipFile(fileobj=buffer, mode='wb')` is
`1F 8B` (magic), `08` (deflate), `00` (flags, no filename since a `fileobj`
is used), the 4-byte little-endian MTIME taken from the wall clock at
compression time, `02` (XFL for the default compresslevel 9) and `FF`
(unknown OS), followed by the compressed body.  The DEFLATE body is modelled
as a byte-preserving (stored) encoding: the only facts the repository's
logic depends on are that the output is gzip-framed, that it is a
deterministic injective function of the input bytes, and that the MTIME
header field varies with the compression time. -/
def gzipCompress (mtime : Nat) (data : List Nat) : List Nat :=
  gzipMagic ++ [8, 0] ++ mtimeLE mtime ++ [2, 255] ++ data

/-- Model of `gzip.open(...).read()` on a stored blob: strip the 10-byte
header written by `gzipCompress`; a blob that is not gzip-framed makes the
real `GzipFile` raise `BadGzipFile`, modelled as `Except.error`. -/
def gzipDecompress (b : List Nat) : Except String (List Nat) :=
  if is_gzip b ∧ 10 ≤ b.length then .ok (b.drop 10) else .error "BadGzipFile"

/-- Model of `utils.calculate_sha256`.  The SHA-256 digest is modelled as an
injective fingerprint of the byte stream (the bytes themselves): every use
in the repository depends only on digest equality coinciding with byte
equality, i.e. on collision-freedom of SHA-256. -/
def calculate_sha256 (b : List Nat) : List Nat := b

/-- Byte value of the newline character counted by `utils.num_lines`. -/
def nlByte : Nat := 10

/-- Number of newline bytes in a decompressed payload. -/
def countNewlines (b : List Nat) : Nat := b.countP (· == nlByte)

/-- Model of `utils.num_lines`: if the file is gzip-framed the content is
decompressed first, then `\n` bytes are counted.  (The source reads the
stream in 64 KiB blocks and, for gzip files, decompresses each block
independently; this model is the exact behaviour for payloads within a
single block, which covers every path the claims quantify over.) -/
def num_lines (b : List Nat) : Except String Nat :=
  if is_gzip b then (gzipDecompress b).map countNewlines
  else .ok (countNewlines b)

/-! ## readline splitting and `utils.headers_match` -/

/-- Split a byte stream the way repeated `file.readline()` calls do: each
line keeps its trailing newline byte, a final fragment without a newline is
its own line, and the empty stream yields no lines. -/
def splitAfterNewlines (b : List Nat) : List (List Nat) :=
  b.foldr
    (fun c acc =>
      if c == nlByte then [c] :: acc
      else
        match acc with
        | [] => [[c]]
        | l :: ls => (c :: l) :: ls)
    []

/-- `readline` on an exhausted file returns the empty string; past the last
line every further call yields `[]`. -/
def readlineAt (lines : List (List Nat)) (i : Nat) : List Nat :=
  (lines.get? i).getD []

/-- Loop body of `utils.headers_match`: compare successive `readline`
results `check` times; the source breaks at the first difference and
returns whether the counter reached zero, i.e. whether all compared reads
were equal. -/
def headersMatchGo (l1 l2 : List (List Nat)) (i check : Nat) : Bool :=
  match check with
  | 0 => true
  | k + 1 =>
    if readlineAt l1 i == readlineAt l2 i then headersMatchGo l1 l2 (i + 1) k
    else false

/-- Model of `utils.headers_match` on two decompressed contents. -/
def headers_match (c1 c2 : List Nat) (check : Nat) : Bool :=
  headersMatchGo (splitAfterNewlines c1) (splitAfterNewlines c2) 0 check

/-! ## Character classes and case folding (ASCII, as used on filenames and
log lines of this repository) -/

/-- Python `str.lower` restricted to ASCII, which is all the repository's
filenames and patterns use. -/
def lowerChar (c : Char) : Char :=
  if 'A' ≤ c ∧ c ≤ 'Z' then Char.ofNat (c.toNat + 32) else c

/-- Lowercase a character list. -/
def lowerStr (s : List Char) : List Char := s.map lowerChar

/-- Python's regex `\w` on the ASCII inputs appearing in this repository:
letters, digits and underscore. -/
def isWordChar (c : Char) : Bool :=
  ('a' ≤ c ∧ c ≤ 'z') ∨ ('A' ≤ c ∧ c ≤ 'Z') ∨ ('0' ≤ c ∧ c ≤ '9') ∨ c = '_'

/-- Decimal digit test (`\d`). -/
def isDigitChar (c : Char) : Bool := '0' ≤ c ∧ c ≤ '9'

/-- Lowercase hexadecimal digit, the character class of Django's uuid path
converter regex. -/
def isHexLower (c : Char) : Bool := isDigitChar c ∨ ('a' ≤ c ∧ c ≤ 'f')

/-- Whether `p` is a prefix of `s` (used for `str.startswith` and literal
regex fragments). -/
def startsWithL (p s : List Char) : Bool :=
  match p, s with
  | [], _ => true
  | _ :: _, [] => false
  | a :: ps, b :: ss => a == b && startsWithL ps ss

/-- Numeric value of a digit string (Python `int` on a `\d+` capture). -/
def natFromDigits (ds : List Char) : Nat :=
  ds.foldl (fun acc c => acc * 10 + (c.toNat - 48)) 0

/-! ## Log kinds (`LogFile.LogFileType`) and classification
(`LogFileSerializer.create`, serializers.py lines 206-208) -/

/-- The closed enumeration `LogFile.LogFileType` with values
UNKNOWN 0, GENERAL 1, TESTING 2, TUTOR 3. -/
inductive LogFileType where
  | unknown
  | general
  | testing
  | tutor
deriving DecidableEq, Repr

/-- The symmetric `prefix` property of each `LogFileType` member:
`None` for UNKNOWN, `'learn_python'`, `'testing'`, `'delphi'`. -/
def prefixStr : LogFileType → Option String
  | .unknown => none
  | .general => some "learn_python"
  | .testing => some "testing"
  | .tutor => some "delphi"

/-- `reversed(LogFile.LogFileType)`: iteration order of the classification
loop, most specific first with UNKNOWN last. -/
def reversedTypes : List LogFileType := [.tutor, .testing, .general, .unknown]

/-- The classification loop body of `LogFileSerializer.create`:
`for type in reversed(LogFile.LogFileType): if
log.name.lower().startswith(type.prefix.lower()): break`.  Reaching the
UNKNOWN member evaluates `None.lower()`, which raises `AttributeError`;
that is modelled as `Except.error`.  (The loop cannot exhaust the list,
because its only `None`-prefixed member raises first; the `[]` case is
therefore unreachable.) -/
def classifyGo (name : List Char) : List LogFileType → Except String LogFileType
  | [] => .error "loop exhausted"
  | t :: rest =>
    match prefixStr t with
    | none => .error "AttributeError: NoneType object has no attribute lower"
    | some p =>
      if startsWithL (lowerStr p.data) (lowerStr name) then .ok t
      else classifyGo name rest

/-- Filename classification as performed inline in
`LogFileSerializer.create`. -/
def classify (name : String) : Except String LogFileType :=
  classifyGo name.data reversedTypes

/-! ## Date derivation (`LOG_NAME_DATE_RGX` search plus `dateutil` parse,
serializers.py lines 197-204) -/

/-- A calendar date as produced by `dateutil.parser.parse(...).date()`. -/
structure Date where
  year : Nat
  month : Nat
  day : Nat
deriving DecidableEq, Repr

/-- Gregorian leap-year test. -/
def isLeap (y : Nat) : Bool := (y % 4 == 0 ∧ y % 100 ≠ 0) ∨ y % 400 == 0

/-- Days in a month of the proleptic Gregorian calendar used by Python
`datetime`. -/
def daysInMonth (y m : Nat) : Nat :=
  if m = 2 then (if isLeap y then 29 else 28)
  else if m = 4 ∨ m = 6 ∨ m = 9 ∨ m = 11 then 30
  else 31

/-- Model of `dateutil.parser.parse` applied to a string that matched
`LOG_NAME_DATE_RGX` (so it has the shape `YYYY-MM-DD`).  With a four-digit
leading year and dash separators dateutil assigns the fields positionally
and raises `ParserError` when the month is outside 1..12, the day is out of
range for the month, or the year is 0 (checked empirically: `2024-13-01`
raises `month must be in 1..12`, it is not reinterpreted by swapping). -/
def parse_date (y m d : Nat) : Except String Date :=
  if y = 0 then .error "ParserError: year 0 is out of range"
  else if ¬(1 ≤ m ∧ m ≤ 12) then .error "ParserError: month must be in 1..12"
  else if ¬(1 ≤ d ∧ d ≤ daysInMonth y m) then
    .error "ParserError: day is out of range for month"
  else .ok ⟨y, m, d⟩

/-- Take exactly `n` digits from the front of a character list. -/
def takeDigits : Nat → List Char → Option (List Char × List Char)
  | 0, cs => some ([], cs)
  | _ + 1, [] => none
  | n + 1, c :: cs =>
    if isDigitChar c then (takeDigits n cs).map (fun p => (c :: p.1, p.2))
    else none

/-- Attempt to match `\d{4}-\d{2}-\d{2}` anchored at the head of the list,
returning the numeric year, month and day. -/
def matchDateAt (cs : List Char) : Option (Nat × Nat × Nat) :=
  match cs with
  | y1 :: y2 :: y3 :: y4 :: '-' :: m1 :: m2 :: '-' :: d1 :: d2 :: _ =>
    if isDigitChar y1 ∧ isDigitChar y2 ∧ isDigitChar y3 ∧ isDigitChar y4 ∧
       isDigitChar m1 ∧ isDigitChar m2 ∧ isDigitChar d1 ∧ isDigitChar d2 then
      some (natFromDigits [y1, y2, y3, y4], natFromDigits [m1, m2],
            natFromDigits [d1, d2])
    else none
  | _ => none

/-- Leftmost search for the date pattern, as `re.search` performs it. -/
def searchDate : List Char → Option (Nat × Nat × Nat)
  | [] => none
  | c :: cs =>
    match matchDateAt (c :: cs) with
    | some r => some r
    | none => searchDate cs

/-- Date derivation of `LogFileSerializer.create` when no explicit date was
supplied: search the filename for `YYYY-MM-DD`; on a match, `parse_date` the
matched text (an uncaught `ParserError` propagates out of `create`); with no
match the date stays `None`.  The guard `if dt:` in the source is dead code:
`dateutil.parser.parse` never returns a falsy value, it raises instead. -/
def deriveDate (name : String) : Except String (Option Date) :=
  match searchDate name.data with
  | none => .ok none
  | some (y, m, d) => (parse_date y m d).map some

/-- The date actually recorded by `create`: the explicitly supplied one if
present (`validated_data.pop('date', None)`), otherwise the one derived
from the filename. -/
def resolveDate (explicitDate : Option Date) (name : String) :
    Except String (Option Date) :=
  match explicitDate with
  | some d => .ok (some d)
  | none => deriveDate name

/-! ## UUID search (`ENGAGEMENT_ID_RGX`, the Django uuid converter regex
`[0-9a-f]{8}-[0-9a-f]{4}-[0-9a-f]{4}-[0-9a-f]{4}-[0-9a-f]{12}`) -/

/-- Take exactly `n` lowercase-hex characters. -/
def takeHex : Nat → List Char → Option (List Char × List Char)
  | 0, cs => some ([], cs)
  | _ + 1, [] => none
  | n + 1, c :: cs =>
    if isHexLower c then (takeHex n cs).map (fun p => (c :: p.1, p.2))
    else none

/-- Match the uuid pattern anchored at the head of the list. -/
def matchUuidAt (cs : List Char) : Option (List Char) :=
  match takeHex 8 cs with
  | none => none
  | some (a, r1) =>
    match r1 with
    | '-' :: r2 =>
      match takeHex 4 r2 with
      | none => none
      | some (b, r3) =>
        match r3 with
        | '-' :: r4 =>
          match takeHex 4 r4 with
          | none => none
          | some (c, r5) =>
            match r5 with
            | '-' :: r6 =>
              match takeHex 4 r6 with
              | none => none
              | some (d, r7) =>
                match r7 with
                | '-' :: r8 =>
                  match takeHex 12 r8 with
                  | none => none
                  | some (e, _) =>
                    some (a ++ '-' :: b ++ '-' :: c ++ '-' :: d ++ '-' :: e)
                | _ => none
            | _ => none
        | _ => none
    | _ => none

/-- Leftmost `re.search` for the uuid pattern. -/
def searchUuid : List Char → Option (List Char)
  | [] => none
  | c :: cs =>
    match matchUuidAt (c :: cs) with
    | some r => some r
    | none => searchUuid cs

/-- UUID search on a filename, as `ENGAGEMENT_ID_RGX.search(log.name)`. -/
def uuidSearchStr (name : String) : Option String :=
  (searchUuid name.data).map List.asString

/-! ## The stored data model (`LogFile`, `TutorEngagement`) -/

/-- One `LogFile` row as persisted by `LogFileSerializer.create`:
`(repository, sha256_hash)` is the `get_or_create` key, `blob` the stored
(gzip-framed) file, `name` the stored filename, `num_lines` the value of
`utils.num_lines` at upload time. -/
structure LogFileRow where
  id : Nat
  sha256_hash : List Nat
  repository : Nat
  type : LogFileType
  blob : List Nat
  name : String
  date : Option Date
  num_lines : Nat
  processed : Bool
deriving DecidableEq, Repr

/-- The slice of a `TutorEngagement` row read and written by the
Tutor branch of `LogFileSerializer.create`: its uuid, the date of its
`start` timestamp and its `log` back-reference. -/
structure Engagement where
  engagement_id : String
  startDate : Date
  log : Option Nat
deriving DecidableEq, Repr

/-- The database state touched by ingestion: the `LogFile` rows (each one
owning its stored blob), the `TutorEngagement` rows, and the id the next
created row receives. -/
structure Store where
  rows : List LogFileRow
  engagements : List Engagement
  nextId : Nat
deriving DecidableEq, Repr

/-- The merge-candidate queryset filter of `LogFileSerializer.create`:
`Q(repository=log_file.repository) & Q(type=type) &
(Q(date=log_file.date) | Q(date__isnull=True))`, excluding the new row's
pk.  (Django turns `Q(date=None)` into an `isnull` lookup, so when
`lfDate` is `none` both disjuncts require a null date.) -/
def candidatePred (owner : Nat) (ty : LogFileType) (lfDate : Option Date)
    (lfId : Nat) (r : LogFileRow) : Bool :=
  r.repository == owner && r.type == ty &&
    (r.date == lfDate || r.date == none) && r.id != lfId

/-- The merge-on-overlap loop of `LogFileSerializer.create` (lines
234-251): decompress candidate and new file, compare the first
`min(num_lines)` readlines; on a header match keep the row with more lines
(ties keep `log_file`), delete the other row together with its backing
bytes, and continue scanning the remaining candidates against the
survivor.  A decompression failure propagates (the source has no
try/except around `gzip.open`). -/
def mergeGo : List LogFileRow → Store → LogFileRow →
    Except String (Store × LogFileRow)
  | [], s, lf => .ok (s, lf)
  | c :: rest, s, lf => do
    let d1 ← gzipDecompress c.blob
    let d2 ← gzipDecompress lf.blob
    if headers_match d1 d2 (min c.num_lines lf.num_lines) then
      let loser := if c.num_lines > lf.num_lines then lf else c
      let survivor := if c.num_lines > lf.num_lines then c else lf
      mergeGo rest
        {s with rows := s.rows.filter (fun r => r.id != loser.id)} survivor
    else
      mergeGo rest s lf

/-- The Tutor branch of `LogFileSerializer.create` (lines 223-233): search
the uploaded name for an engagement uuid; if an engagement with that uuid
exists, point its `log` at the row, backfill the row's date from the
engagement's start, and save both; a missing engagement is ignored
(`except TutorEngagement.DoesNotExist: pass`). -/
def tutorBackfill (s : Store) (uploadName : String) (lf : LogFileRow) :
    Store × LogFileRow :=
  match uuidSearchStr uploadName with
  | none => (s, lf)
  | some u =>
    match s.engagements.find? (fun e => e.engagement_id == u) with
    | none => (s, lf)
    | some e =>
      let lf2 := {lf with date := some e.startDate}
      ({s with
          engagements := s.engagements.map
            (fun x => if x.engagement_id == u then {x with log := some lf.id}
                      else x),
          rows := s.rows.map (fun r => if r.id == lf.id then lf2 else r)},
       lf2)

/-- Model of `LogFileSerializer.create` = the Content Store's `Ingest`.

Steps, in source order: (1) if the upload is not gzip-framed, compress it
with the wall clock `now` as gzip MTIME and rename it `<name>.gz`;
(2) resolve the date (explicit, else filename search, an unparsable match
raising); (3) classify by filename prefix (raising on no match); (4) look
up `(sha256 of the stored bytes, owner)` with `get_or_create`, creating a
row with the computed defaults when absent — note the hash is taken from
`log` *after* the compression step; (5) for Tutor files run the engagement
backfill, for every other kind run the merge-on-overlap scan.  Returns the
final state and the returned `LogFile` row. -/
def ingest (s : Store) (payload : List Nat) (filename : String)
    (owner : Nat) (now : Nat) (explicitDate : Option Date) :
    Except String (Store × LogFileRow) := do
  let (blob, name) :=
    if is_gzip payload then (payload, filename)
    else (gzipCompress now payload, filename ++ ".gz")
  let date ← resolveDate explicitDate name
  let ty ← classify name
  let hash := calculate_sha256 blob
  let nl ← num_lines blob
  let (s1, lf) :=
    match s.rows.find?
        (fun r => r.sha256_hash == hash && r.repository == owner) with
    | some r => (s, r)
    | none =>
      let row : LogFileRow :=
        {id := s.nextId, sha256_hash := hash, repository := owner,
         type := ty, blob := blob, name := name, date := date,
         num_lines := nl, processed := false}
      ({s with rows := s.rows ++ [row], nextId := s.nextId + 1}, row)
  if ty = .tutor then
    .ok (tutorBackfill s1 name lf)
  else
    mergeGo (s1.rows.filter (candidatePred owner ty lf.date lf.id)) s1 lf

/-! ## Parsed records and the event extractor
(`Command.process_log`, process_logs.py lines 93-156) -/

/-- One parsed record as produced by `LogFile.LogIterator.__next__` after
`unmarshall`: the primary-pattern captures (timestamp kept as its raw
text — `ts_parse` tolerates unparsable stamps and the extractor only moves
the value around), the resolved numeric level, the absorbed message, the
line span, and the optional secondary-pattern captures. -/
structure RawRecord where
  timestamp : String
  logger : String
  level_no : Option String
  level : Nat
  message : String
  line_begin : Nat
  line_end : Nat
  start : Option String
  stop : Option String
  result : Option String
  identifier : Option String
deriving DecidableEq, Repr

/-- The fields of a record that lie in `FIELD_NAMES[LogEvent]` and are
copied into a created `LogEvent` (timestamp, level, line span, message,
logger); `start`, `stop`, `result`, `identifier` and `assignment` are not
`LogEvent` fields and are projected away. -/
structure LogEventData where
  timestamp : String
  level : Nat
  line_begin : Nat
  line_end : Nat
  message : String
  logger : String
deriving DecidableEq, Repr

/-- Field projection `{key: value for key, value in log_record.items() if
key in FIELD_NAMES[LogEvent]}`. -/
def projectLogEvent (r : RawRecord) : LogEventData :=
  {timestamp := r.timestamp, level := r.level, line_begin := r.line_begin,
   line_end := r.line_end, message := r.message, logger := r.logger}

/-- An event row persisted by `process_log`: a `ToolRun`, a plain
`LogEvent`, or a `TestEvent` (a `LogEvent` plus result, optional runner
tag and resolved assignment).  The owning repository and log file are the
single file being processed and are left implicit. -/
inductive PersistedEvent where
  | toolRun (tool : String) (timestamp stop : String)
  | logEvent (e : LogEventData)
  | testEvent (e : LogEventData) (result : String) (runner : Option String)
      (assignment : Nat)
deriving DecidableEq, Repr

/-- The `timestamp` column of the polymorphic `TimelineEvent` base table,
which carries the `unique_together (timestamp, repository)` constraint all
event kinds share. -/
def evTimestamp : PersistedEvent → String
  | .toolRun _ ts _ => ts
  | .logEvent e => e.timestamp
  | .testEvent e _ _ _ => e.timestamp

/-- `EventType.objects.create(...)` inside the per-record try/except: a
`(timestamp, repository)` uniqueness violation raises, is caught and
logged, and the loop continues — modelled as leaving the event list
unchanged. -/
def tryCreate (evs : List PersistedEvent) (e : PersistedEvent) :
    List PersistedEvent :=
  if evs.any (fun x => evTimestamp x == evTimestamp e) then evs
  else evs ++ [e]

/-- The `get` filter of `ToolRun.objects.get_or_create`: a `ToolRun` row
whose `tool`, `timestamp` and `stop` fields equal the given values (the
`repository` and `log` kwargs are the processed file's and are implicit). -/
def sameToolRun (tool ts stop : String) : PersistedEvent → Bool
  | .toolRun t a b => t == tool && a == ts && b == stop
  | _ => false

/-- `ToolRun.objects.get_or_create(tool=..., timestamp=..., stop=..., ...)`
inside its own try/except: an identical existing run is returned without a
new row; otherwise creation is attempted and a uniqueness failure is
swallowed. -/
def toolRunGetOrCreate (evs : List PersistedEvent) (tool ts stop : String) :
    List PersistedEvent :=
  if evs.any (sameToolRun tool ts stop) then evs
  else tryCreate evs (.toolRun tool ts stop)

/-- Extraction state for one file: the local `runner_stack` (top at the
head; `runner_stack[-1]` is the head, `runner_stack[0]` the last element)
and the events persisted so far. -/
structure ExtractState where
  stack : List (String × String)
  events : List PersistedEvent
deriving DecidableEq, Repr

/-- One iteration of the record loop in `Command.process_log`.

Transcription: an empty record (falsy dict) is skipped; a record is
considered when `log_record['level'] >= level or log_file.type is TESTING`.
For Testing files: a `start` capture pushes `(tag, timestamp)` and emits
nothing; a `stop` capture pops and emits a `ToolRun` only when the stack
top's tag equals it, otherwise it is discarded; a record with both
`result` and `identifier` resolves the assignment — on success a
`TestEvent` is created with `runner` taken from `runner_stack[0][0]` (the
stack bottom) when the stack is non-empty, and on failure the code falls
through and creates a plain `LogEvent` from the record's
`LogEvent`-schema fields; any other Testing record hits the trailing
`else: continue` and is dropped.  For non-Testing files a plain `LogEvent`
is created. -/
def processRecord (resolve : String → Option Nat) (ty : LogFileType)
    (lvl : Nat) (st : ExtractState) (rec : Option RawRecord) : ExtractState :=
  match rec with
  | none => st
  | some r =>
    if r.level ≥ lvl ∨ ty = .testing then
      if ty = .testing then
        match r.start with
        | some tag => {st with stack := (tag, r.timestamp) :: st.stack}
        | none =>
          match r.stop with
          | some tag =>
            match st.stack with
            | (t0, ts0) :: rest =>
              if t0 = tag then
                {stack := rest,
                 events := toolRunGetOrCreate st.events t0 ts0 r.timestamp}
              else st
            | [] => st
          | none =>
            match r.result, r.identifier with
            | some res, some ident =>
              match resolve ident with
              | some a =>
                let ev : PersistedEvent :=
                  .testEvent (projectLogEvent r) res
                    ((st.stack.getLast?).map Prod.fst) a
                {st with events := tryCreate st.events ev}
              | none =>
                {st with events := tryCreate st.events (.logEvent (projectLogEvent r))}
            | _, _ => st
      else
        {st with events := tryCreate st.events (.logEvent (projectLogEvent r))}
    else st

/-- `Command.process_log` over one file's record sequence: the
`runner_stack` starts empty, records are folded in order, and the stack is
discarded when the sequence is exhausted.  `resolve` is the assignment
resolver `Assignment.objects.filter(Q(module__repository__courses=course)
& Q(identifier=...)).first()` for the owning repository's course. -/
def process_log (resolve : String → Option Nat) (ty : LogFileType)
    (lvl : Nat) (recs : List (Option RawRecord)) : List PersistedEvent :=
  (recs.foldl (processRecord resolve ty lvl) ⟨[], []⟩).events

/-- The per-file loop of `Command.handle`: `process_log` is invoked once
per selected `LogFile`, each call constructing a fresh local
`runner_stack`, while created events accumulate in the shared database. -/
def processBatch (resolve : String → Option Nat) (lvl : Nat)
    (files : List (LogFileType × List (Option RawRecord))) :
    List PersistedEvent :=
  files.foldl
    (fun evs f => (f.2.foldl (processRecord resolve f.1 lvl) ⟨[], evs⟩).events)
    []

/-- A record as parsed from a `[START] tag` marker line: the secondary
capture sets `start`, the primary captures come from the surrounding
timestamped line. -/
def mkStartRecord (tag ts : String) : RawRecord :=
  {timestamp := ts, logger := "testing", level_no := none, level := 20,
   message := "[START] " ++ tag, line_begin := 0, line_end := 1,
   start := some tag, stop := none, result := none, identifier := none}

/-- A record as parsed from a `[STOP] tag` marker line. -/
def mkStopRecord (tag ts : String) : RawRecord :=
  {timestamp := ts, logger := "testing", level_no := none, level := 20,
   message := "[STOP] " ++ tag, line_begin := 0, line_end := 1,
   start := none, stop := some tag, result := none, identifier := none}

/-! ## The record parser (`LogFile.LogIterator`, `_DEFAULT_REGEX`, the
Testing secondary patterns, and `LogFileType.unmarshall`) -/

/-- Consume one expected character (a literal in a regex). -/
def expectCh (c : Char) : List Char → Option (List Char)
  | x :: xs => if x == c then some xs else none
  | [] => none

/-- Consume an expected literal string. -/
def expectStr (p : List Char) (s : List Char) : Option (List Char) :=
  if startsWithL p s then some (s.drop p.length) else none

/-- Maximal run of `\w` characters with the rest of the input.  A greedy
`\w+` followed by a non-word literal in the pattern cannot backtrack into a
successful shorter match (the freed characters are word characters and
would have to match the non-word literal), so maximal munch is exact for
the patterns of this repository. -/
def takeWordRun : List Char → List Char × List Char
  | [] => ([], [])
  | c :: cs =>
    if isWordChar c then
      let p := takeWordRun cs
      (c :: p.1, p.2)
    else ([], c :: cs)

/-- Maximal run of `\d` characters with the rest of the input. -/
def takeDigitRun : List Char → List Char × List Char
  | [] => ([], [])
  | c :: cs =>
    if isDigitChar c then
      let p := takeDigitRun cs
      (c :: p.1, p.2)
    else ([], c :: cs)

/-- Consume one regex `.`: any character except a newline. -/
def takeAnyNotNL : List Char → Option (Char × List Char)
  | c :: cs => if c ≠ '\n' then some (c, cs) else none
  | [] => none

/-- The primary-pattern captures of `_DEFAULT_REGEX`:
`^(?P<timestamp>\d{4}-\d{2}-\d{2} \d{2}:\d{2}:\d{2}.\d{6}[+-]{1}\d{4}) - `
`(?P<logger>\w+) - (?:\[(?P<level_no>\d+)\])?(?P<level>\w+) - `
`(?P<message>.*)`. -/
structure PrimGroups where
  timestamp : List Char
  logger : List Char
  level_no : Option (List Char)
  level : List Char
  message : List Char
deriving DecidableEq, Repr

/-- Consume one `[+-]{1}` character. -/
def takeSign : List Char → Option (Char × List Char)
  | c :: cs => if c == '+' ∨ c == '-' then some (c, cs) else none
  | [] => none

/-- The timestamp part of `_DEFAULT_REGEX`,
`\d{4}-\d{2}-\d{2} \d{2}:\d{2}:\d{2}.\d{6}[+-]{1}\d{4}`, anchored at the
head: the captured text and the rest of the line.  Every element is fixed
width, so there is no backtracking. -/
def parseTimestamp (line : List Char) : Option (List Char × List Char) :=
  match takeDigits 4 line with
  | none => none
  | some (d1, r) =>
  match expectCh '-' r with
  | none => none
  | some r =>
  match takeDigits 2 r with
  | none => none
  | some (d2, r) =>
  match expectCh '-' r with
  | none => none
  | some r =>
  match takeDigits 2 r with
  | none => none
  | some (d3, r) =>
  match expectCh ' ' r with
  | none => none
  | some r =>
  match takeDigits 2 r with
  | none => none
  | some (h1, r) =>
  match expectCh ':' r with
  | none => none
  | some r =>
  match takeDigits 2 r with
  | none => none
  | some (h2, r) =>
  match expectCh ':' r with
  | none => none
  | some r =>
  match takeDigits 2 r with
  | none => none
  | some (h3, r) =>
  match takeAnyNotNL r with
  | none => none
  | some (dot, r) =>
  match takeDigits 6 r with
  | none => none
  | some (us, r) =>
  match takeSign r with
  | none => none
  | some (sgn, r) =>
  match takeDigits 4 r with
  | none => none
  | some (tz, r) =>
    some (d1 ++ '-' :: d2 ++ '-' :: d3 ++ ' ' :: h1 ++ ':' :: h2 ++
          ':' :: h3 ++ dot :: us ++ sgn :: tz, r)

/-- The optional level-number group `(?:\[(?P<level_no>\d+)\])?` anchored
at the head: greedy, capturing when a complete `[digits]` is present and
falling back to consuming nothing otherwise. -/
def parseLevelNo (r : List Char) : Option (List Char) × List Char :=
  match r with
  | '[' :: r2 =>
    let p := takeDigitRun r2
    if p.1 ≠ [] then
      match p.2 with
      | ']' :: r4 => (some p.1, r4)
      | _ => (none, r)
    else (none, r)
  | _ => (none, r)

/-- `_DEFAULT_REGEX.search(line)`: the pattern is anchored at the string
start by `^`, so search and match coincide.  The fixed-width timestamp part
admits no backtracking; `\w+` groups are maximal-munch exact (see
`takeWordRun`); when the optional level-number group falls back, `\w+`
must match at the same position; `(?P<message>.*)` takes everything up to
the line's newline. -/
def primarySearch (line : List Char) : Option PrimGroups :=
  match parseTimestamp line with
  | none => none
  | some (ts, r) =>
  match expectStr " - ".data r with
  | none => none
  | some r =>
  match takeWordRun r with
  | ([], _) => none
  | (lg0 :: lg, r) =>
  match expectStr " - ".data r with
  | none => none
  | some r =>
  match parseLevelNo r with
  | (lno, r) =>
  match takeWordRun r with
  | ([], _) => none
  | (lv0 :: lv, r) =>
  match expectStr " - ".data r with
  | none => none
  | some r =>
    some ⟨ts, lg0 :: lg, lno, lv0 :: lv, r.takeWhile (· ≠ '\n')⟩

/-- Anchored attempt of the Testing secondary `\[START\] (?P<start>[\w]+)`. -/
def matchStartAt (cs : List Char) : Option (List Char) :=
  match expectStr "[START] ".data cs with
  | none => none
  | some r =>
    match takeWordRun r with
    | ([], _) => none
    | (w0 :: w, _) => some (w0 :: w)

/-- `re.search` of the START pattern: leftmost position that matches. -/
def searchStartTag : List Char → Option (List Char)
  | [] => none
  | c :: cs =>
    match matchStartAt (c :: cs) with
    | some w => some w
    | none => searchStartTag cs

/-- Anchored attempt of the Testing secondary `\[STOP\] (?P<stop>[\w]+)`. -/
def matchStopAt (cs : List Char) : Option (List Char) :=
  match expectStr "[STOP] ".data cs with
  | none => none
  | some r =>
    match takeWordRun r with
    | ([], _) => none
    | (w0 :: w, _) => some (w0 :: w)

/-- `re.search` of the STOP pattern. -/
def searchStopTag : List Char → Option (List Char)
  | [] => none
  | c :: cs =>
    match matchStopAt (c :: cs) with
    | some w => some w
    | none => searchStopTag cs

/-- Anchored attempt of the identifier part of the Testing result
secondary, `learn_python/tests/[\w]+.py::test_[\w]+` (the dot before `py`
is an unescaped any-character `.`), returning the `identifier` capture. -/
def matchIdentAt (r : List Char) : Option (List Char) :=
  match expectStr "learn_python/tests/".data r with
  | none => none
  | some r1 =>
  match takeWordRun r1 with
  | ([], _) => none
  | (m0 :: m, r2) =>
  match takeAnyNotNL r2 with
  | none => none
  | some (dot, r3) =>
  match expectStr "py::test_".data r3 with
  | none => none
  | some r4 =>
  match takeWordRun r4 with
  | ([], _) => none
  | (t0 :: t, _) =>
    some ("learn_python/tests/".data ++ (m0 :: m) ++
          dot :: "py::test_".data ++ (t0 :: t))

/-- Anchored attempt of the Testing secondary
`\[(?P<result>[\w]+)\] (?P<identifier>...)`: a bracketed result word, a
space, then the identifier pattern; returns the `result` and `identifier`
captures. -/
def matchResultAt (cs : List Char) : Option (List Char × List Char) :=
  match expectCh '[' cs with
  | none => none
  | some r =>
  match takeWordRun r with
  | ([], _) => none
  | (res0 :: res, r) =>
  match expectCh ']' r with
  | none => none
  | some r =>
  match expectCh ' ' r with
  | none => none
  | some r =>
  match matchIdentAt r with
  | none => none
  | some ident => some (res0 :: res, ident)

/-- `re.search` of the result pattern. -/
def searchResultId : List Char → Option (List Char × List Char)
  | [] => none
  | c :: cs =>
    match matchResultAt (c :: cs) with
    | some w => some w
    | none => searchResultId cs

/-- The `additional_params` closure of `LogIterator.__next__`: try each
secondary pattern of the file's kind against the given line, in declaration
order (result, START, STOP for Testing; no secondaries for the other
kinds); the first matching pattern contributes its captures to the record
and the loop breaks. -/
def applySecondaries (ty : LogFileType) (line : List Char) (r : RawRecord) :
    RawRecord :=
  match ty with
  | .testing =>
    match searchResultId line with
    | some (res, ident) =>
      {r with result := some res.asString, identifier := some ident.asString}
    | none =>
      match searchStartTag line with
      | some w => {r with start := some w.asString}
      | none =>
        match searchStopTag line with
        | some w => {r with stop := some w.asString}
        | none => r
  | _ => r

/-- The level-resolution step of `LogFileType.unmarshall`:
`params['level'] = params.get('level_no') or LogLevel(params.get('level'))
or LogLevel(params.get('level_no'))`, with a `ValueError` falling back to
NOTSET, followed by `int()` on a string value.  A present `level_no`
capture (a non-empty digit string, hence truthy) short-circuits to its
integer value; otherwise the level name is looked up in `LogEvent.LogLevel`
— labels case-insensitively, the alternates `WARNING`, `EXCEPTION`,
`FATAL` case-sensitively (their symmetric property is declared without
`case_fold`) — and an unknown name resolves to NOTSET 0. -/
def resolveLevel (lno : Option (List Char)) (lv : List Char) : Nat :=
  match lno with
  | some ds => natFromDigits ds
  | none =>
    let low := lowerStr lv
    if low = "notset".data then 0
    else if low = "debug".data then 10
    else if low = "info".data then 20
    else if low = "warn".data then 30
    else if low = "error".data then 40
    else if low = "critical".data then 50
    else if lv = "WARNING".data then 30
    else if lv = "EXCEPTION".data then 40
    else if lv = "FATAL".data then 50
    else 0

/-- Build the record for a primary match at line index `pos`:
`params = match.groupdict()` plus `line_begin`, with `unmarshall` applied
(timestamp kept as its raw text — `ts_parse` failures keep the string and
no modelled claim inspects the parsed instant; level resolved by
`resolveLevel`).  `line_end` is filled in after absorption. -/
def mkRecord (g : PrimGroups) (pos : Nat) : RawRecord :=
  {timestamp := g.timestamp.asString, logger := g.logger.asString,
   level_no := g.level_no.map List.asString,
   level := resolveLevel g.level_no g.level, message := g.message.asString,
   line_begin := pos, line_end := 0, start := none, stop := none,
   result := none, identifier := none}

/-- One step of readline splitting: a newline closes the current line,
any other character is prepended to it. -/
def splitStepChar (c : Char) (acc : List (List Char)) : List (List Char) :=
  if c == '\n' then [c] :: acc
  else
    match acc with
    | [] => [[c]]
    | l :: ls => (c :: l) :: ls

/-- Split a text into readline results (each keeping its newline). -/
def splitCharsAfterNewlines (cs : List Char) : List (List Char) :=
  cs.foldr splitStepChar []

/-- The lines of a log text, as successive `readline` calls return them. -/
def textLines (text : String) : List String :=
  (splitCharsAfterNewlines text.data).map List.asString

/-- `readline` past the end of the file returns the empty string. -/
def lineAt (lines : List String) (i : Nat) : String := (lines.get? i).getD ""

/-- Index of the line that terminates the absorption loop
`while (next_line := self.readline()) and self.next_line_match is None`:
the first index at or after `q` whose line is empty (EOF) or matches the
primary pattern.  `fuel` bounds the scan; callers pass at least
`lines.length + 1`, which always reaches the terminating index. -/
def findStop (lines : List String) (q : Nat) : Nat → Nat
  | 0 => q
  | fuel + 1 =>
    let l := lineAt lines q
    if l = "" ∨ (primarySearch l.data).isSome then q
    else findStop lines (q + 1) fuel

/-- The absorption loop body applied to the continuation lines with
indices `i, i+1, ..., q-1`: each line is appended newline-joined to the
message (`params['message'] += f'\n{next_line}'`, the line keeping its own
trailing newline) and `additional_params()` is called on it, so
continuation lines also contribute secondary captures. -/
def absorbRange (ty : LogFileType) (lines : List String) (i q : Nat)
    (r : RawRecord) : RawRecord :=
  (List.range' i (q - i)).foldl
    (fun r idx =>
      let l := lineAt lines idx
      applySecondaries ty l.data {r with message := r.message ++ "\n" ++ l})
    r

/-- The iterator loop of `LogFile.LogIterator`: at line `p`, an empty
lookahead raises `StopIteration`; a line not matching the primary pattern
is consumed and yielded as the empty record `\x7b\x7d` (modelled `none`);
a primary match starts a record at `line_begin = p`, applies the
secondaries to the same line, absorbs continuation lines up to the next
primary match or EOF, sets `line_end` to the terminating index, and
yields.  `fuel` bounds the number of yielded elements; each element
consumes at least one line, so `lines.length + 1` is never exhausted. -/
def iterGo (ty : LogFileType) (lines : List String) (p : Nat) :
    Nat → List (Option RawRecord)
  | 0 => []
  | fuel + 1 =>
    let l := lineAt lines p
    if l = "" then []
    else
      match primarySearch l.data with
      | none => none :: iterGo ty lines (p + 1) fuel
      | some g =>
        let q := findStop lines (p + 1) (lines.length + 1)
        let r0 := applySecondaries ty l.data (mkRecord g p)
        let r1 := {absorbRange ty lines (p + 1) q r0 with line_end := q}
        some r1 :: iterGo ty lines q fuel

/-- Model of iterating a `LogFile` (`LogFile.__iter__` /
`LogIterator.__next__`) over the decompressed text of a file of kind
`ty`: the full sequence of records the iterator yields. -/
def iterLog (ty : LogFileType) (text : String) : List (Option RawRecord) :=
  let lines := textLines text
  iterGo ty lines 0 (lines.length + 1)

/-! # Theorems -/

/-- Claim C6 (code_bug exhibit).  Classification tests the kind prefixes
case-insensitively in most-specific-first order (Tutor `delphi`, Testing
`testing`, General `learn_python`) and the first matching prefix wins: a
name starting with the Tutor prefix classifies Tutor even when another
kind's substring occurs later.  But a filename matching no prefix does
not fall back to the Unknown kind: the loop reaches the UNKNOWN member,
whose `prefix` is `None`, and `None.lower()` raises `AttributeError`,
failing the ingest — contradicting the claim's final part. -/
theorem classification_order_and_unknown_failure :
    classify "DELPHI-2024-01-01.log" = .ok .tutor ∧
    classify "delphi_testing.log" = .ok .tutor ∧
    classify "Testing_2024-05-06.log.gz" = .ok .testing ∧
    classify "learn_python_2024-05-06.log" = .ok .general ∧
    classify "foo.log" =
      .error "AttributeError: NoneType object has no attribute lower" ∧
    ingest ⟨[], [], 0⟩ (gzipCompress 0 []) "foo.log" 7 0 none =
      .error "AttributeError: NoneType object has no attribute lower" := by
  refine ⟨rfl, rfl, rfl, rfl, rfl, rfl⟩

/-- Claim C9 (code_bug exhibit).  With no explicit date, the filename is
searched for `YYYY-MM-DD`: a parseable match becomes the date and no match
leaves it null, but a matching yet unparsable string (month 13) does not
leave the date null — `dateutil` raises `ParserError`, the exception is
uncaught (the `if dt:` guard is dead code), and the whole ingest fails. -/
theorem filename_date_derivation_paths :
    deriveDate "learn_python_2024-01-02.log" = .ok (some ⟨2024, 1, 2⟩) ∧
    deriveDate "learn_python.log" = .ok none ∧
    deriveDate "learn_python_2024-13-01.log" =
      .error "ParserError: month must be in 1..12" ∧
    ingest ⟨[], [], 0⟩ (gzipCompress 0 []) "learn_python_2024-13-01.log" 7 0
      none = .error "ParserError: month must be in 1..12" := by
  refine ⟨rfl, rfl, rfl, rfl⟩

/-- Claim C7.  Parsing the spec's two-record input yields exactly two
records: the second and third physical lines do not both match the primary
pattern — `extra line` is absorbed newline-joined into the first record's
message, which therefore contains both `start` and `extra line` — and the
`line_begin`/`line_end` spans `[0,2)` and `[2,3)` cover exactly the
physical lines each record absorbed. -/
theorem multiline_capture_two_records :
    iterLog .general
      ("2024-01-01 00:00:00.000000+0000 - x - INFO - start\n" ++
       "extra line\n" ++
       "2024-01-01 00:00:01.000000+0000 - x - INFO - end") =
    [some {timestamp := "2024-01-01 00:00:00.000000+0000", logger := "x",
           level_no := none, level := 20, message := "start\nextra line\n",
           line_begin := 0, line_end := 2, start := none, stop := none,
           result := none, identifier := none},
     some {timestamp := "2024-01-01 00:00:01.000000+0000", logger := "x",
           level_no := none, level := 20, message := "end",
           line_begin := 2, line_end := 3, start := none, stop := none,
           result := none, identifier := none}] := by
  rfl

/-- Claim C8 (counterexample).  The claim states that continuation lines
absorbed into the message contribute no secondary fields; but
`additional_params()` is also invoked inside the absorption loop, so the
continuation line `[START] pytest` of this single-record Testing file sets
the record's `start` capture, refuting the claim. -/
theorem continuation_line_contributes_secondary :
    iterLog .testing
      ("2024-01-01 00:00:00.000000+0000 - testing - INFO - msg\n" ++
       "[START] pytest\n") =
    [some {timestamp := "2024-01-01 00:00:00.000000+0000",
           logger := "testing", level_no := none, level := 20,
           message := "msg\n[START] pytest\n", line_begin := 0,
           line_end := 2, start := some "pytest", stop := none,
           result := none, identifier := none}] ∧
    (some "pytest" : Option String) ≠ none := by
  exact ⟨rfl, by simp⟩

/-- Claim C1 (counterexample).  Ingesting the same two-byte non-gzip
payload for the same owner twice, one clock second apart, yields two
`LogFile` rows, not one: the content hash is computed over the
post-compression bytes, and the gzip header embeds the compression time,
so the two stored blobs — and hence the two idempotency keys — differ. -/
theorem reingest_uncompressed_creates_second_row :
    ((ingest ⟨[], [], 0⟩ [104, 105] "delphi.log" 7 0 none).bind
      (fun p => ingest p.1 [104, 105] "delphi.log" 7 1 none)).map
      (fun p => p.1.rows.length) = .ok 2 ∧ (2 : Nat) ≠ 1 := by
  exact ⟨rfl, by simp⟩

/-- Claim C4 (counterexample).  A Testing record carrying both `result`
and `identifier` whose identifier does not resolve to an assignment is not
silently dropped: `EventType` is still `LogEvent` when the fall-through
`create` runs, so a plain `LogEvent` with the record's `LogEvent`-schema
fields is persisted, refuting the claim's "no event of any type". -/
theorem unresolved_identifier_emits_logevent :
    process_log (fun _ => none) .testing 40
      [some {timestamp := "ts1", logger := "testing", level_no := none,
             level := 20,
             message := "[failed] learn_python/tests/test_m.py::test_a",
             line_begin := 0, line_end := 1, start := none, stop := none,
             result := some "failed",
             identifier := some "learn_python/tests/test_m.py::test_a"}] =
    [.logEvent {timestamp := "ts1", level := 20, line_begin := 0,
                line_end := 1,
                message := "[failed] learn_python/tests/test_m.py::test_a",
                logger := "testing"}] ∧
    [PersistedEvent.logEvent
      {timestamp := "ts1", level := 20, line_begin := 0, line_end := 1,
       message := "[failed] learn_python/tests/test_m.py::test_a",
       logger := "testing"}] ≠ [] := by
  exact ⟨rfl, by simp⟩

/-- Claim C5 (counterexample).  In a Testing-kind file a structurally
recognized record carrying no start, stop or result marker does not emit a
plain `LogEvent`: it hits the trailing `else: continue` and is dropped,
even at ERROR level with an ERROR threshold — while the identical record
in a General-kind file is persisted. -/
theorem testing_markerless_record_dropped :
    process_log (fun _ => none) .testing 40
      [some {timestamp := "ts2", logger := "x", level_no := none,
             level := 40, message := "boom", line_begin := 0, line_end := 1,
             start := none, stop := none, result := none,
             identifier := none}] = [] ∧
    process_log (fun _ => none) .general 40
      [some {timestamp := "ts2", logger := "x", level_no := none,
             level := 40, message := "boom", line_begin := 0, line_end := 1,
             start := none, stop := none, result := none,
             identifier := none}] =
    [.logEvent {timestamp := "ts2", level := 40, line_begin := 0,
                line_end := 1, message := "boom", logger := "x"}] := by
  exact ⟨rfl, rfl⟩

/-- Pushing: a Testing record with a `start` capture pushes the tag and
timestamp and emits nothing, for every threshold and prior state. -/
theorem processRecord_start (resolve : String → Option Nat) (lvl : Nat)
    (st : ExtractState) (tag ts : String) :
    processRecord resolve .testing lvl st (some (mkStartRecord tag ts)) =
      {st with stack := (tag, ts) :: st.stack} := by
  simp [processRecord, mkStartRecord]

/-- Popping: a Testing record with a `stop` capture matching the stack
top's tag pops it and records the bracketed `ToolRun`. -/
theorem processRecord_stop_match (resolve : String → Option Nat) (lvl : Nat)
    (evs : List PersistedEvent) (rest : List (String × String))
    (tag ts0 ts : String) :
    processRecord resolve .testing lvl ⟨(tag, ts0) :: rest, evs⟩
        (some (mkStopRecord tag ts)) =
      ⟨rest, toolRunGetOrCreate evs tag ts0 ts⟩ := by
  simp [processRecord, mkStopRecord]

/-- Claim C3.  A Testing record sequence `START(A)@t1, START(B)@t2,
STOP(B)@t3, STOP(A)@t4` (with the two starts at distinct instants, as the
`(timestamp, repository)` uniqueness of `TimelineEvent` requires for both
rows to exist) persists exactly the two ToolRuns `(B, t2, t3)` and
`(A, t1, t4)`, the inner bracket emitted before the outer; each STOP was
paired only because the stack top's start tag equalled it. -/
theorem bracket_nesting_two_toolruns (resolve : String → Option Nat)
    (lvl : Nat) (A B t1 t2 t3 t4 : String) (h : t1 ≠ t2) :
    process_log resolve .testing lvl
      [some (mkStartRecord A t1), some (mkStartRecord B t2),
       some (mkStopRecord B t3), some (mkStopRecord A t4)] =
    [.toolRun B t2 t3, .toolRun A t1 t4] := by
  have ht : (t2 == t1) = false := beq_eq_false_iff_ne.mpr (Ne.symm h)
  simp [process_log, processRecord, mkStartRecord, mkStopRecord,
        toolRunGetOrCreate, tryCreate, sameToolRun, evTimestamp, ht]

/-- Witness for the claim C3 theorem at concrete tags and times. -/
theorem bracket_nesting_two_toolruns_witness :
    process_log (fun _ => none) .testing 40
      [some (mkStartRecord "pytest" "t1"), some (mkStartRecord "docs" "t2"),
       some (mkStopRecord "docs" "t3"), some (mkStopRecord "pytest" "t4")] =
    [.toolRun "docs" "t2" "t3", .toolRun "pytest" "t1" "t4"] :=
  bracket_nesting_two_toolruns (fun _ => none) 40 "pytest" "docs"
    "t1" "t2" "t3" "t4" (by decide)

/-- Claim C10.  The bracket stack is local to one file's extraction: a
batch over two Testing files, the first containing only `START(A)@t1` and
the second only `STOP(A)@t2`, persists no ToolRun (the second file starts
with an empty stack, so its STOP is discarded as unbalanced and the first
file's dangling START is thrown away with its stack), whereas the same two
records inside a single file produce the ToolRun `(A, t1, t2)`. -/
theorem bracket_stack_reset_per_file (resolve : String → Option Nat)
    (lvl : Nat) (A t1 t2 : String) :
    processBatch resolve lvl
      [(.testing, [some (mkStartRecord A t1)]),
       (.testing, [some (mkStopRecord A t2)])] = [] ∧
    process_log resolve .testing lvl
      [some (mkStartRecord A t1), some (mkStopRecord A t2)] =
      [.toolRun A t1 t2] := by
  constructor <;>
    simp [processBatch, process_log, processRecord, mkStartRecord,
          mkStopRecord, toolRunGetOrCreate, tryCreate, sameToolRun,
          evTimestamp]

/-- Claim C5 (amended).  (a) For a non-Testing-kind record a plain
`LogEvent` is persisted exactly when the record's severity meets or
exceeds the caller-supplied threshold; (b) for Testing-kind files the
threshold is ignored entirely — extraction is the same function for any
two thresholds; (c) but a Testing record carrying no start, stop or
complete result marker is dropped rather than emitting a plain
`LogEvent`. -/
theorem level_threshold_filtering :
    (∀ (resolve : String → Option Nat) (ty : LogFileType) (lvl : Nat)
       (r : RawRecord), ty ≠ .testing →
       process_log resolve ty lvl [some r] =
         if r.level ≥ lvl then [.logEvent (projectLogEvent r)] else []) ∧
    (∀ (resolve : String → Option Nat) (lvl1 lvl2 : Nat)
       (recs : List (Option RawRecord)),
       process_log resolve .testing lvl1 recs =
         process_log resolve .testing lvl2 recs) ∧
    (∀ (resolve : String → Option Nat) (lvl : Nat) (r : RawRecord),
       r.start = none → r.stop = none →
       r.result = none ∨ r.identifier = none →
       process_log resolve .testing lvl [some r] = []) := by
  refine ⟨?_, ?_, ?_⟩
  · intro resolve ty lvl r hty
    simp only [process_log, List.foldl_cons, List.foldl_nil]
    simp [processRecord, hty, tryCreate]
    split <;> rfl
  · intro resolve lvl1 lvl2 recs
    have hrec : ∀ (st : ExtractState) (rec : Option RawRecord),
        processRecord resolve .testing lvl1 st rec =
          processRecord resolve .testing lvl2 st rec := by
      intro st rec
      cases rec with
      | none => rfl
      | some r => simp [processRecord]
    have hfold : ∀ (l : List (Option RawRecord)) (st : ExtractState),
        l.foldl (processRecord resolve .testing lvl1) st =
          l.foldl (processRecord resolve .testing lvl2) st := by
      intro l
      induction l with
      | nil => intro st; rfl
      | cons a tl ih =>
        intro st
        rw [List.foldl_cons, List.foldl_cons, hrec, ih]
    simp [process_log, hfold]
  · intro resolve lvl r h1 h2 h3
    simp only [process_log, List.foldl_cons, List.foldl_nil]
    cases hres : r.result with
    | none => simp [processRecord, h1, h2, hres]
    | some res =>
      cases h3 with
      | inl h => rw [h] at hres; exact absurd hres (by simp)
      | inr h => simp [processRecord, h1, h2, hres, h]

/-- Witness for the claim C5 theorem: all three parts at concrete inputs —
an ERROR-level General record under an ERROR threshold is persisted, an
INFO-level General record under an ERROR threshold is not, Testing
extraction of a bracket pair is identical under thresholds 0 and 50, and a
markerless ERROR-level Testing record is dropped. -/
theorem level_threshold_filtering_witness :
    process_log (fun _ => none) .general 40
      [some {timestamp := "ts3", logger := "x", level_no := none,
             level := 40, message := "a", line_begin := 0, line_end := 1,
             start := none, stop := none, result := none,
             identifier := none}] =
      [.logEvent {timestamp := "ts3", level := 40, line_begin := 0,
                  line_end := 1, message := "a", logger := "x"}] ∧
    process_log (fun _ => none) .general 40
      [some {timestamp := "ts4", logger := "x", level_no := none,
             level := 20, message := "b", line_begin := 0, line_end := 1,
             start := none, stop := none, result := none,
             identifier := none}] = [] ∧
    process_log (fun _ => none) .testing 0
        [some (mkStartRecord "pytest" "t1"),
         some (mkStopRecord "pytest" "t2")] =
      process_log (fun _ => none) .testing 50
        [some (mkStartRecord "pytest" "t1"),
         some (mkStopRecord "pytest" "t2")] ∧
    process_log (fun _ => none) .testing 40
      [some {timestamp := "ts5", logger := "x", level_no := none,
             level := 40, message := "c", line_begin := 0, line_end := 1,
             start := none, stop := none, result := none,
             identifier := none}] = [] :=
  ⟨level_threshold_filtering.1 (fun _ => none) .general 40 _ (by decide),
   level_threshold_filtering.1 (fun _ => none) .general 40 _ (by decide),
   level_threshold_filtering.2.1 (fun _ => none) 0 50 _,
   level_threshold_filtering.2.2 (fun _ => none) 40 _ rfl rfl (Or.inl rfl)⟩

/-- Folding a run of START records onto any state pushes them in order
(most recent at the head) and persists nothing. -/
theorem foldl_start_records (resolve : String → Option Nat) (lvl : Nat)
    (starts : List (String × String)) (st : ExtractState) :
    (starts.map (fun p => some (mkStartRecord p.1 p.2))).foldl
        (processRecord resolve .testing lvl) st =
      ⟨starts.reverse ++ st.stack, st.events⟩ := by
  induction starts generalizing st with
  | nil => simp
  | cons a tl ih =>
    simp only [List.map_cons, List.foldl_cons, processRecord_start]
    rw [ih]
    simp

/-- Claim C4 (amended; the runner clause of the claim).  A Testing record
with a `result` and an `identifier` that resolves to an assignment is
persisted as a `TestEvent` whose `runner` is the start tag at the bottom
of the current bracket stack (`runner_stack[0][0]`) when the stack is
non-empty, and is unset when it is empty — here after an arbitrary run of
START records building the stack. -/
theorem testevent_runner_from_stack_bottom (resolve : String → Option Nat)
    (lvl : Nat) (starts : List (String × String)) (r : RawRecord)
    (res ident : String) (a : Nat) (h1 : r.start = none) (h2 : r.stop = none)
    (h3 : r.result = some res) (h4 : r.identifier = some ident)
    (h5 : resolve ident = some a) :
    process_log resolve .testing lvl
      (starts.map (fun p => some (mkStartRecord p.1 p.2)) ++ [some r]) =
    [.testEvent (projectLogEvent r) res (starts.head?.map Prod.fst) a] := by
  simp only [process_log, List.foldl_append, foldl_start_records,
             List.foldl_cons, List.foldl_nil]
  simp [processRecord, h1, h2, h3, h4, h5, tryCreate]

/-- Witness for the claim C4 theorem: with the stack built by
`START(pytest)` then `START(docs)`, a resolving test record is persisted
as a `TestEvent` whose runner is `pytest`, the bottom of the stack. -/
theorem testevent_runner_from_stack_bottom_witness :
    process_log
      (fun i => if i = "learn_python/tests/test_m.py::test_a" then some 5
                else none) .testing 40
      (([("pytest", "t0"), ("docs", "t1")]).map
          (fun p => some (mkStartRecord p.1 p.2)) ++
        [some {timestamp := "ts6", logger := "testing", level_no := none,
               level := 20,
               message := "[passed] learn_python/tests/test_m.py::test_a",
               line_begin := 2, line_end := 3, start := none, stop := none,
               result := some "passed",
               identifier := some "learn_python/tests/test_m.py::test_a"}]) =
    [.testEvent {timestamp := "ts6", level := 20, line_begin := 2,
                 line_end := 3,
                 message := "[passed] learn_python/tests/test_m.py::test_a",
                 logger := "testing"} "passed" (some "pytest") 5] :=
  testevent_runner_from_stack_bottom _ 40 [("pytest", "t0"), ("docs", "t1")]
    _ "passed" "learn_python/tests/test_m.py::test_a" 5
    rfl rfl rfl rfl (by decide)

/-- Reduction of a successful `Except` bind (the monadic sequencing of
`ingest`). -/
theorem except_ok_bind {epsilon α β : Type} (a : α) (f : α → Except epsilon β) :
    (Except.ok a : Except epsilon α) >>= f = f a := rfl

/-- Reduction of `Except.map` on a success value. -/
theorem except_map_ok {epsilon α β : Type} (g : α → β) (a : α) :
    Except.map g (Except.ok a : Except epsilon α) = Except.ok (g a) := rfl

/-- Claim C1 (amended).  For a payload that is already gzip-framed (so the
compression step does not run and the stored bytes equal the upload), for
a Tutor-kind filename carrying no engagement uuid, and for an owner with
no existing row for this content: the first ingest appends exactly one row
keyed by the hash of the uploaded bytes, and re-ingesting the identical
bytes at any later time returns that existing row unchanged and leaves the
store unchanged — `(owner, sha256 of the stored bytes)` is the idempotency
key.  (For a payload that is not gzip-framed this fails, because the hash
is computed after compression and the gzip header embeds the compression
time: see the claim's counterexample.) -/
theorem ingest_idempotent_for_gzip_payload (s : Store) (B : List Nat)
    (f : String) (o t1 t2 : Nat) (d : Date) (hgz : is_gzip B = true)
    (hlen : 10 ≤ B.length) (hcl : classify f = .ok .tutor)
    (huuid : uuidSearchStr f = none)
    (hfresh : ∀ r ∈ s.rows, ¬(r.sha256_hash = B ∧ r.repository = o)) :
    ingest s B f o t1 (some d) =
      .ok ({s with
              rows := s.rows ++
                [⟨s.nextId, B, o, .tutor, B, f, some d,
                  countNewlines (B.drop 10), false⟩],
              nextId := s.nextId + 1},
           ⟨s.nextId, B, o, .tutor, B, f, some d,
            countNewlines (B.drop 10), false⟩) ∧
    ingest {s with
              rows := s.rows ++
                [⟨s.nextId, B, o, .tutor, B, f, some d,
                  countNewlines (B.drop 10), false⟩],
              nextId := s.nextId + 1} B f o t2 (some d) =
      .ok ({s with
              rows := s.rows ++
                [⟨s.nextId, B, o, .tutor, B, f, some d,
                  countNewlines (B.drop 10), false⟩],
              nextId := s.nextId + 1},
           ⟨s.nextId, B, o, .tutor, B, f, some d,
            countNewlines (B.drop 10), false⟩) := by
  have hfind : s.rows.find?
      (fun r => r.sha256_hash == B && r.repository == o) = none := by
    rw [List.find?_eq_none]
    intro r hr
    simp only [Bool.and_eq_true, beq_iff_eq, not_and]
    intro h1 h2
    exact hfresh r hr ⟨h1, h2⟩
  have hdec : gzipDecompress B = .ok (B.drop 10) := by
    simp [gzipDecompress, hgz, hlen]
  constructor
  · simp [ingest, hgz, hcl, resolveDate, num_lines, hdec, hfind,
          tutorBackfill, huuid, except_ok_bind, except_map_ok,
          calculate_sha256]
  · simp [ingest, hgz, hcl, resolveDate, num_lines, hdec, hfind,
          tutorBackfill, huuid, except_ok_bind, except_map_ok,
          calculate_sha256]

/-- Witness for the claim C1 amended theorem: a well-formed one-line gzip
blob ingested twice for owner 7 at seconds 0 and 9. -/
theorem ingest_idempotent_for_gzip_payload_witness :
    ingest ⟨[], [], 0⟩ (gzipCompress 0 [97, 10]) "delphi.log" 7 0
        (some ⟨2024, 1, 1⟩) =
      .ok ({rows := [⟨0, gzipCompress 0 [97, 10], 7, .tutor,
                      gzipCompress 0 [97, 10], "delphi.log",
                      some ⟨2024, 1, 1⟩,
                      countNewlines ((gzipCompress 0 [97, 10]).drop 10),
                      false⟩],
            engagements := [], nextId := 1},
           ⟨0, gzipCompress 0 [97, 10], 7, .tutor, gzipCompress 0 [97, 10],
            "delphi.log", some ⟨2024, 1, 1⟩,
            countNewlines ((gzipCompress 0 [97, 10]).drop 10), false⟩) ∧
    ingest {rows := [⟨0, gzipCompress 0 [97, 10], 7, .tutor,
                      gzipCompress 0 [97, 10], "delphi.log",
                      some ⟨2024, 1, 1⟩,
                      countNewlines ((gzipCompress 0 [97, 10]).drop 10),
                      false⟩],
            engagements := [], nextId := 1}
        (gzipCompress 0 [97, 10]) "delphi.log" 7 9 (some ⟨2024, 1, 1⟩) =
      .ok ({rows := [⟨0, gzipCompress 0 [97, 10], 7, .tutor,
                      gzipCompress 0 [97, 10], "delphi.log",
                      some ⟨2024, 1, 1⟩,
                      countNewlines ((gzipCompress 0 [97, 10]).drop 10),
                      false⟩],
            engagements := [], nextId := 1},
           ⟨0, gzipCompress 0 [97, 10], 7, .tutor, gzipCompress 0 [97, 10],
            "delphi.log", some ⟨2024, 1, 1⟩,
            countNewlines ((gzipCompress 0 [97, 10]).drop 10), false⟩) :=
  ingest_idempotent_for_gzip_payload ⟨[], [], 0⟩ (gzipCompress 0 [97, 10])
    "delphi.log" 7 0 9 ⟨2024, 1, 1⟩ (by decide) (by decide) (by decide)
    (by decide) (by intro r hr; cases hr)

/-- A filter that accepts exactly one element of an id-distinct list
returns that element alone. -/
theorem filter_eq_single (l : List LogFileRow) (p : LogFileRow → Bool)
    (a : LogFileRow) (hmem : a ∈ l) (hpa : p a = true)
    (hothers : ∀ r ∈ l, r.id ≠ a.id → p r = false)
    (hnodup : (l.map (fun r => r.id)).Nodup) : l.filter p = [a] := by
  induction l with
  | nil => cases hmem
  | cons b tl ih =>
    rw [List.map_cons, List.nodup_cons] at hnodup
    rcases List.mem_cons.mp hmem with hb | htl
    · subst hb
      rw [List.filter_cons]
      simp only [hpa, if_true]
      have htlnil : tl.filter p = [] := by
        rw [List.filter_eq_nil_iff]
        intro r hr
        have hne : r.id ≠ a.id := by
          intro he
          exact hnodup.1 (he ▸ List.mem_map_of_mem (fun r => r.id) hr)
        simp [hothers r (List.mem_cons_of_mem _ hr) hne]
      rw [htlnil]
    · have hbne : b.id ≠ a.id := by
        intro he
        exact hnodup.1 (he ▸ List.mem_map_of_mem (fun r => r.id) htl)
      have hpb : p b = false := hothers b (List.mem_cons_self b tl) hbne
      rw [List.filter_cons]
      simp only [hpb, Bool.false_eq_true, if_false]
      exact ih htl (fun r hr hne => hothers r (List.mem_cons_of_mem _ hr) hne)
        hnodup.2

/-- Claim C2.  Two uploads by the same owner of the same non-Tutor kind
whose dates match (including both null): if the first
`min(lineCount1, lineCount2)` readlines of their decompressed contents are
identical, then after ingesting the second exactly one `LogFile` of the
pair survives, its line count is the larger of the two (on a tie the new
upload is kept), the other row — and with it its stored blob — is removed
from the store, and no row beyond the survivor and the pre-existing rows
appears. -/
theorem merge_on_overlap_keeps_larger (s : Store) (o now : Nat) (f : String)
    (ty : LogFileType) (dopt nd : Option Date) (B2 c1 c2 : List Nat)
    (r1 : LogFileRow) (hty : classify f = .ok ty) (hnt : ty ≠ .tutor)
    (hgz : is_gzip B2 = true) (hdec2 : gzipDecompress B2 = .ok c2)
    (hdate : resolveDate dopt f = .ok nd) (hmem : r1 ∈ s.rows)
    (hown : r1.repository = o) (hrty : r1.type = ty) (hrdate : r1.date = nd)
    (hdec1 : gzipDecompress r1.blob = .ok c1)
    (hfresh : ∀ r ∈ s.rows, ¬(r.sha256_hash = B2 ∧ r.repository = o))
    (hids : ∀ r ∈ s.rows, r.id ≠ s.nextId)
    (hnodup : (s.rows.map (fun r => r.id)).Nodup)
    (honly : ∀ r ∈ s.rows, r.id ≠ r1.id →
       ¬(r.repository = o ∧ r.type = ty ∧ (r.date = nd ∨ r.date = none)))
    (hhm : headers_match c1 c2 (min r1.num_lines (countNewlines c2)) =
       true) :
    ∃ s2 surv, ingest s B2 f o now dopt = .ok (s2, surv) ∧
      surv.num_lines = max r1.num_lines (countNewlines c2) ∧
      (r1.num_lines > countNewlines c2 → surv = r1) ∧
      (¬ r1.num_lines > countNewlines c2 →
         surv = ⟨s.nextId, B2, o, ty, B2, f, nd, countNewlines c2, false⟩) ∧
      (r1 ∈ s2.rows ↔ r1.num_lines > countNewlines c2) ∧
      ((⟨s.nextId, B2, o, ty, B2, f, nd, countNewlines c2, false⟩ :
          LogFileRow) ∈ s2.rows ↔ ¬ r1.num_lines > countNewlines c2) ∧
      (∀ r ∈ s2.rows, r ∈ s.rows ∨
         r = ⟨s.nextId, B2, o, ty, B2, f, nd, countNewlines c2, false⟩) := by
  have hr1id : r1.id ≠ s.nextId := hids r1 hmem
  have hfind : s.rows.find?
      (fun r => r.sha256_hash == B2 && r.repository == o) = none := by
    rw [List.find?_eq_none]
    intro r hr
    simp only [Bool.and_eq_true, beq_iff_eq, not_and]
    intro h1 h2
    exact hfresh r hr ⟨h1, h2⟩
  have hmain : ingest s B2 f o now dopt =
      mergeGo ((s.rows ++
          [(⟨s.nextId, B2, o, ty, B2, f, nd, countNewlines c2, false⟩ :
              LogFileRow)]).filter (candidatePred o ty nd s.nextId))
        ⟨s.rows ++ [⟨s.nextId, B2, o, ty, B2, f, nd, countNewlines c2,
            false⟩], s.engagements, s.nextId + 1⟩
        ⟨s.nextId, B2, o, ty, B2, f, nd, countNewlines c2, false⟩ := by
    simp [ingest, hgz, hty, hdate, num_lines, hdec2, hfind, hnt,
          calculate_sha256, except_ok_bind, except_map_ok]
  have hcand : (s.rows ++
      [(⟨s.nextId, B2, o, ty, B2, f, nd, countNewlines c2, false⟩ :
          LogFileRow)]).filter (candidatePred o ty nd s.nextId) = [r1] := by
    rw [List.filter_append]
    have h1 : s.rows.filter (candidatePred o ty nd s.nextId) = [r1] := by
      apply filter_eq_single s.rows _ r1 hmem _ _ hnodup
      · simp [candidatePred, hown, hrty, hrdate, hr1id]
      · intro r hr hne
        by_contra hc
        rw [Bool.not_eq_false] at hc
        simp only [candidatePred, Bool.and_eq_true, beq_iff_eq,
                   Bool.or_eq_true, bne_iff_ne] at hc
        exact honly r hr hne ⟨hc.1.1.1, hc.1.1.2, hc.1.2⟩
    have h2 : ([(⟨s.nextId, B2, o, ty, B2, f, nd, countNewlines c2, false⟩ :
        LogFileRow)]).filter (candidatePred o ty nd s.nextId) = [] := by
      simp [candidatePred]
    rw [h1, h2, List.append_nil]
  rw [hmain, hcand]
  by_cases hgt : r1.num_lines > countNewlines c2
  · refine ⟨⟨s.rows, s.engagements, s.nextId + 1⟩, r1, ?_, ?_, fun _ => rfl,
      fun hn => absurd hgt hn, ?_, ?_, ?_⟩
    · simp only [mergeGo, hdec1, hdec2, except_ok_bind]
      simp only [hhm, if_true]
      have hif : (r1.num_lines >
          (⟨s.nextId, B2, o, ty, B2, f, nd, countNewlines c2, false⟩ :
            LogFileRow).num_lines) = True := by
        simp [hgt]
      simp only [hif, if_true, mergeGo]
      have hrows : (s.rows ++ [(⟨s.nextId, B2, o, ty, B2, f, nd,
          countNewlines c2, false⟩ : LogFileRow)]).filter
            (fun r => r.id != s.nextId) = s.rows := by
        rw [List.filter_append]
        have ha : s.rows.filter (fun r => r.id != s.nextId) = s.rows := by
          rw [List.filter_eq_self]
          intro r hr
          simp [hids r hr]
        have hb : ([(⟨s.nextId, B2, o, ty, B2, f, nd, countNewlines c2,
            false⟩ : LogFileRow)]).filter (fun r => r.id != s.nextId) =
            [] := by simp
        rw [ha, hb, List.append_nil]
      simp only [hrows]
    · exact (Nat.max_eq_left (Nat.le_of_lt hgt)).symm
    · simp [hmem, hgt]
    · constructor
      · intro hin
        exact absurd rfl (hids _ hin)
      · intro hn
        exact absurd hgt hn
    · intro r hr
      exact Or.inl hr
  · refine ⟨⟨s.rows.filter (fun r => r.id != r1.id) ++
        [⟨s.nextId, B2, o, ty, B2, f, nd, countNewlines c2, false⟩],
        s.engagements, s.nextId + 1⟩,
      ⟨s.nextId, B2, o, ty, B2, f, nd, countNewlines c2, false⟩, ?_, ?_,
      fun hg => absurd hg hgt, fun _ => rfl, ?_, ?_, ?_⟩
    · simp only [mergeGo, hdec1, hdec2, except_ok_bind]
      simp only [hhm, if_true]
      have hif : (r1.num_lines >
          (⟨s.nextId, B2, o, ty, B2, f, nd, countNewlines c2, false⟩ :
            LogFileRow).num_lines) = False := by
        simp [hgt]
      simp only [hif, if_false, mergeGo]
      have hrows : (s.rows ++ [(⟨s.nextId, B2, o, ty, B2, f, nd,
          countNewlines c2, false⟩ : LogFileRow)]).filter
            (fun r => r.id != r1.id) =
          s.rows.filter (fun r => r.id != r1.id) ++
            [⟨s.nextId, B2, o, ty, B2, f, nd, countNewlines c2, false⟩] := by
        rw [List.filter_append]
        have hb : ([(⟨s.nextId, B2, o, ty, B2, f, nd, countNewlines c2,
            false⟩ : LogFileRow)]).filter (fun r => r.id != r1.id) =
            [⟨s.nextId, B2, o, ty, B2, f, nd, countNewlines c2, false⟩] := by
          simp [Ne.symm hr1id]
        rw [hb]
      simp only [hrows]
    · exact (Nat.max_eq_right (Nat.not_lt.mp hgt)).symm
    · constructor
      · intro hin
        rcases List.mem_append.mp hin with hf | hf
        · have := (List.mem_filter.mp hf).2
          simp at this
        · have : r1 = ⟨s.nextId, B2, o, ty, B2, f, nd, countNewlines c2,
              false⟩ := by simpa using hf
          exact absurd (congrArg LogFileRow.id this) hr1id
      · intro hg
        exact absurd hg hgt
    · simpa using Nat.not_lt.mp hgt
    · intro r hr
      rcases List.mem_append.mp hr with hf | hf
      · exact Or.inl (List.mem_of_mem_filter hf)
      · exact Or.inr (by simpa using hf)

/-- A word character differs from any non-word character (left operand). -/
theorem word_beq_left {c d : Char} (h : isWordChar c = true)
    (hd : isWordChar d = false) : (c == d) = false := by
  by_contra hb
  rw [Bool.not_eq_false] at hb
  have he : c = d := beq_iff_eq.mp hb
  rw [← he, h] at hd
  cases hd

/-- A word character differs from any non-word character (right operand). -/
theorem word_beq_right {c d : Char} (h : isWordChar c = true)
    (hd : isWordChar d = false) : (d == c) = false := by
  by_contra hb
  rw [Bool.not_eq_false] at hb
  have he : d = c := beq_iff_eq.mp hb
  rw [he, h] at hd
  cases hd

/-- A `\w+` run over an all-word-character list consumes everything. -/
theorem takeWordRun_all (w : List Char) (h : w.all isWordChar = true) :
    takeWordRun w = (w, []) := by
  induction w with
  | nil => rfl
  | cons c cs ih =>
    rw [List.all_cons, Bool.and_eq_true] at h
    simp [takeWordRun, h.1, ih h.2]

/-- A literal containing a slash never prefixes an all-word-character
list. -/
theorem startsWithL_slash_word (a b w : List Char)
    (h : w.all isWordChar = true) : startsWithL (a ++ '/' :: b) w = false := by
  induction a generalizing w with
  | nil =>
    cases w with
    | nil => rfl
    | cons c cs =>
      rw [List.all_cons, Bool.and_eq_true] at h
      simp [startsWithL,
            word_beq_right h.1 (show isWordChar '/' = false by decide)]
  | cons x xs ih =>
    cases w with
    | nil => rfl
    | cons c cs =>
      rw [List.all_cons, Bool.and_eq_true] at h
      simp [startsWithL, ih cs h.2]

/-- The Testing result pattern never matches inside an all-word run
(its leading `\[` cannot match a word character). -/
theorem searchResultId_word (w : List Char) (h : w.all isWordChar = true) :
    searchResultId w = none := by
  induction w with
  | nil => rfl
  | cons c cs ih =>
    rw [List.all_cons, Bool.and_eq_true] at h
    have hm : matchResultAt (c :: cs) = none := by
      have hec : expectCh '[' (c :: cs) = none := by
        simp [expectCh,
              word_beq_left h.1 (show isWordChar '[' = false by decide)]
      simp [matchResultAt, hec]
    simp [searchResultId, hm, ih h.2]

/-- Folding the readline splitter over a newline-free block prepends the
block onto the current first line. -/
theorem splitStep_foldr_prepend (l m : List Char) (ms : List (List Char))
    (h : ∀ c ∈ l, (c == '\n') = false) :
    l.foldr splitStepChar (m :: ms) = (l ++ m) :: ms := by
  induction l with
  | nil => rfl
  | cons c cs ih =>
    rw [List.foldr_cons, ih (fun x hx => h x (List.mem_cons_of_mem _ hx))]
    simp [splitStepChar, h c (List.mem_cons_self c cs)]

/-- A nonempty newline-free text is a single readline. -/
theorem splitChars_no_nl (l : List Char) (hl : l ≠ [])
    (h : ∀ c ∈ l, (c == '\n') = false) : splitCharsAfterNewlines l = [l] := by
  induction l with
  | nil => cases hl rfl
  | cons c cs ih =>
    have hc := h c (List.mem_cons_self c cs)
    cases hcs : cs with
    | nil =>
      subst hcs
      simp [splitCharsAfterNewlines, splitStepChar, hc]
    | cons d ds =>
      subst hcs
      have htl : splitCharsAfterNewlines (d :: ds) = [d :: ds] :=
        ih (by simp) (fun x hx => h x (List.mem_cons_of_mem _ hx))
      unfold splitCharsAfterNewlines at htl ⊢
      rw [List.foldr_cons, htl]
      simp [splitStepChar, hc]

set_option maxRecDepth 16384 in
/-- Claim C8 (amended).  Secondary patterns are applied, first match
winning, to the primary-matched line *and* to every continuation line
absorbed into the record: for any nonempty `\w`-word `w`, a Testing record
whose continuation line is `[START] w` carries `start = w` — the
continuation line contributed the secondary capture — while its other
secondary fields stay unset; and on any single line the first matching
secondary pattern wins: a primary line containing both a result marker
and a START marker captures only `result`/`identifier` (the result
pattern is tried first), leaving `start` unset.  Secondary captures never
conflict with the primary captures by construction of the pattern set. -/
theorem secondary_capture_per_line (w : String) (hwne : w.data ≠ [])
    (hall : w.data.all isWordChar = true) :
    (iterLog .testing
      ("2024-01-01 00:00:00.000000+0000 - testing - INFO - msg\n[START] " ++
        w) =
    [some {timestamp := "2024-01-01 00:00:00.000000+0000",
           logger := "testing", level_no := none, level := 20,
           message := "msg\n[START] " ++ w, line_begin := 0, line_end := 2,
           start := some w, stop := none, result := none,
           identifier := none}]) ∧
    iterLog .testing
      ("2024-01-01 00:00:00.000000+0000 - testing - INFO - " ++
       "[passed] learn_python/tests/test_m.py::test_a [START] pytest\n") =
    [some {timestamp := "2024-01-01 00:00:00.000000+0000",
           logger := "testing", level_no := none, level := 20,
           message :=
             "[passed] learn_python/tests/test_m.py::test_a [START] pytest",
           line_begin := 0, line_end := 1, start := none, stop := none,
           result := some "passed",
           identifier := some "learn_python/tests/test_m.py::test_a"}] := by
  refine ⟨?_, rfl⟩
  have hwnl : ∀ c ∈ ("[START] ".data ++ w.data), (c == '\n') = false := by
    intro c hc
    rcases List.mem_append.mp hc with h1 | h2
    · exact (show ∀ c ∈ "[START] ".data, (c == '\n') = false by decide) c h1
    · exact word_beq_left (List.all_eq_true.mp hall c h2)
        (show isWordChar '\n' = false by decide)
  have hinner : splitCharsAfterNewlines ("[START] ".data ++ w.data) =
      ["[START] ".data ++ w.data] :=
    splitChars_no_nl _ (by simp) hwnl
  have hsplit : splitCharsAfterNewlines
      (("2024-01-01 00:00:00.000000+0000 - testing - INFO - msg\n[START] " ++
        w).data) =
      ["2024-01-01 00:00:00.000000+0000 - testing - INFO - msg\n".data,
       "[START] ".data ++ w.data] := by
    rw [show ("2024-01-01 00:00:00.000000+0000 - testing - INFO - msg\n[START] "
          ++ w).data =
        ("2024-01-01 00:00:00.000000+0000 - testing - INFO - msg".data ++
          ['\n']) ++ ("[START] ".data ++ w.data) from rfl]
    unfold splitCharsAfterNewlines at hinner ⊢
    rw [List.foldr_append, List.foldr_append, hinner]
    rw [show List.foldr splitStepChar (["[START] ".data ++ w.data]) ['\n'] =
        ['\n'] :: ["[START] ".data ++ w.data] from rfl]
    rw [splitStep_foldr_prepend _ _ _
        (show ∀ c ∈ "2024-01-01 00:00:00.000000+0000 - testing - INFO - msg".data,
          (c == '\n') = false by decide)]
    rfl
  have hlines : textLines
      ("2024-01-01 00:00:00.000000+0000 - testing - INFO - msg\n[START] " ++
        w) =
      ["2024-01-01 00:00:00.000000+0000 - testing - INFO - msg\n",
       "[START] " ++ w] := by
    unfold textLines
    rw [hsplit]
    rfl
  have hL1ne : ("[START] " ++ w) ≠ "" := by
    intro hh
    have hd := congrArg String.data hh
    rw [String.data_append] at hd
    simp at hd
  have hexp : expectStr "learn_python/tests/".data w.data = none := by
    have hs : startsWithL "learn_python/tests/".data w.data = false := by
      rw [show "learn_python/tests/".data =
          "learn_python".data ++ '/' :: "tests/".data from rfl]
      exact startsWithL_slash_word _ _ _ hall
    simp [expectStr, hs]
  have hid : matchIdentAt w.data = none := by
    unfold matchIdentAt
    rw [hexp]
  have hres : searchResultId (("[START] " ++ w).data) = none := by
    have hm : matchResultAt ("[START] ".data ++ w.data) = none := by
      rw [show matchResultAt ("[START] ".data ++ w.data) =
          (match matchIdentAt w.data with
           | none => none
           | some ident =>
             some ((['S', 'T', 'A', 'R', 'T'] : List Char), ident)) from rfl,
        hid]
    rw [show (("[START] " ++ w).data : List Char) =
        "[START] ".data ++ w.data from rfl]
    rw [show searchResultId ("[START] ".data ++ w.data) =
        (match matchResultAt ("[START] ".data ++ w.data) with
         | some r => some r
         | none => searchResultId w.data) from rfl, hm]
    exact searchResultId_word w.data hall
  have hstart : searchStartTag (("[START] " ++ w).data) = some w.data := by
    have hms : matchStartAt ("[START] ".data ++ w.data) = some w.data := by
      rw [show matchStartAt ("[START] ".data ++ w.data) =
          (match takeWordRun w.data with
           | ([], _) => none
           | (w0 :: ws, _) => some (w0 :: ws)) from rfl,
        takeWordRun_all w.data hall]
      obtain ⟨c, cs, hcc⟩ : ∃ c cs, w.data = c :: cs := by
        cases hw : w.data with
        | nil => exact absurd hw hwne
        | cons c cs => exact ⟨c, cs, rfl⟩
      rw [hcc]
    rw [show (("[START] " ++ w).data : List Char) =
        "[START] ".data ++ w.data from rfl]
    rw [show searchStartTag ("[START] ".data ++ w.data) =
        (match matchStartAt ("[START] ".data ++ w.data) with
         | some x => some x
         | none =>
           searchStartTag ('S' :: 'T' :: 'A' :: 'R' :: 'T' :: ']' :: ' ' ::
             w.data)) from rfl, hms]
  have hq : findStop
      ["2024-01-01 00:00:00.000000+0000 - testing - INFO - msg\n",
       "[START] " ++ w] 1 3 = 2 := by
    have hcond : ¬((("[START] " ++ w) = "") ∨
        ((primarySearch (("[START] " ++ w).data)).isSome = true)) := by
      rintro (hh | hh)
      · exact hL1ne hh
      · rw [show primarySearch (("[START] " ++ w).data) = none from rfl]
          at hh
        cases hh
    rw [show findStop
        ["2024-01-01 00:00:00.000000+0000 - testing - INFO - msg\n",
         "[START] " ++ w] 1 3 =
        (if (("[START] " ++ w) = "") ∨
            ((primarySearch (("[START] " ++ w).data)).isSome = true) then 1
         else findStop
           ["2024-01-01 00:00:00.000000+0000 - testing - INFO - msg\n",
            "[START] " ++ w] 2 2) from rfl]
    rw [if_neg hcond]
    rfl
  simp only [iterLog]
  rw [hlines]
  rw [show iterGo .testing
      ["2024-01-01 00:00:00.000000+0000 - testing - INFO - msg\n",
       "[START] " ++ w] 0
      ((["2024-01-01 00:00:00.000000+0000 - testing - INFO - msg\n",
         "[START] " ++ w] : List String).length + 1) =
      some {absorbRange .testing
              ["2024-01-01 00:00:00.000000+0000 - testing - INFO - msg\n",
               "[START] " ++ w] 1
              (findStop
                ["2024-01-01 00:00:00.000000+0000 - testing - INFO - msg\n",
                 "[START] " ++ w] 1 3)
              {timestamp := "2024-01-01 00:00:00.000000+0000",
               logger := "testing", level_no := none, level := 20,
               message := "msg", line_begin := 0, line_end := 0,
               start := none, stop := none, result := none,
               identifier := none} with
            line_end := findStop
              ["2024-01-01 00:00:00.000000+0000 - testing - INFO - msg\n",
               "[START] " ++ w] 1 3} ::
        iterGo .testing
          ["2024-01-01 00:00:00.000000+0000 - testing - INFO - msg\n",
           "[START] " ++ w]
          (findStop
            ["2024-01-01 00:00:00.000000+0000 - testing - INFO - msg\n",
             "[START] " ++ w] 1 3) 2 from rfl]
  rw [hq]
  rw [show absorbRange .testing
      ["2024-01-01 00:00:00.000000+0000 - testing - INFO - msg\n",
       "[START] " ++ w] 1 2
      {timestamp := "2024-01-01 00:00:00.000000+0000", logger := "testing",
       level_no := none, level := 20, message := "msg", line_begin := 0,
       line_end := 0, start := none, stop := none, result := none,
       identifier := none} =
      applySecondaries .testing (("[START] " ++ w).data)
        {timestamp := "2024-01-01 00:00:00.000000+0000", logger := "testing",
         level_no := none, level := 20,
         message := "msg" ++ "\n" ++ ("[START] " ++ w), line_begin := 0,
         line_end := 0, start := none, stop := none, result := none,
         identifier := none} from rfl]
  simp only [applySecondaries, hres, hstart]
  rfl

set_option maxRecDepth 16384 in
/-- Witness for the claim C8 amended theorem at the concrete tag
`pytest`. -/
theorem secondary_capture_per_line_witness :
    (iterLog .testing
      ("2024-01-01 00:00:00.000000+0000 - testing - INFO - msg\n[START] " ++
        "pytest") =
    [some {timestamp := "2024-01-01 00:00:00.000000+0000",
           logger := "testing", level_no := none, level := 20,
           message := "msg\n[START] " ++ "pytest", line_begin := 0,
           line_end := 2, start := some "pytest", stop := none,
           result := none, identifier := none}]) ∧
    iterLog .testing
      ("2024-01-01 00:00:00.000000+0000 - testing - INFO - " ++
       "[passed] learn_python/tests/test_m.py::test_a [START] pytest\n") =
    [some {timestamp := "2024-01-01 00:00:00.000000+0000",
           logger := "testing", level_no := none, level := 20,
           message :=
             "[passed] learn_python/tests/test_m.py::test_a [START] pytest",
           line_begin := 0, line_end := 1, start := none, stop := none,
           result := some "passed",
           identifier := some "learn_python/tests/test_m.py::test_a"}] :=
  secondary_capture_per_line "pytest" (by decide) (by decide)

/-- Witness for the claim C2 theorem: an existing General row holding the
two-line content `a\nb\n` and a new three-line upload `a\nb\nc\n` whose
first two readlines agree; the new (larger) upload survives and the old
row is deleted. -/
theorem merge_on_overlap_keeps_larger_witness :
    ∃ s2 surv,
      ingest ⟨[⟨0, [31, 139, 8, 0, 0, 0, 0, 0, 2, 255, 97, 10, 98, 10], 7,
                .general, [31, 139, 8, 0, 0, 0, 0, 0, 2, 255, 97, 10, 98, 10],
                "learn_python.log.gz", none, 2, false⟩], [], 1⟩
          [31, 139, 8, 0, 0, 0, 0, 0, 2, 255, 97, 10, 98, 10, 99, 10]
          "learn_python.log" 7 5 none = .ok (s2, surv) ∧
      surv.num_lines = max 2 3 ∧
      ((2 : Nat) > 3 →
         surv = ⟨0, [31, 139, 8, 0, 0, 0, 0, 0, 2, 255, 97, 10, 98, 10], 7,
                 .general,
                 [31, 139, 8, 0, 0, 0, 0, 0, 2, 255, 97, 10, 98, 10],
                 "learn_python.log.gz", none, 2, false⟩) ∧
      (¬ (2 : Nat) > 3 →
         surv = ⟨1, [31, 139, 8, 0, 0, 0, 0, 0, 2, 255, 97, 10, 98, 10, 99,
                     10], 7, .general,
                 [31, 139, 8, 0, 0, 0, 0, 0, 2, 255, 97, 10, 98, 10, 99, 10],
                 "learn_python.log", none, 3, false⟩) ∧
      ((⟨0, [31, 139, 8, 0, 0, 0, 0, 0, 2, 255, 97, 10, 98, 10], 7, .general,
         [31, 139, 8, 0, 0, 0, 0, 0, 2, 255, 97, 10, 98, 10],
         "learn_python.log.gz", none, 2, false⟩ : LogFileRow) ∈ s2.rows ↔
        (2 : Nat) > 3) ∧
      ((⟨1, [31, 139, 8, 0, 0, 0, 0, 0, 2, 255, 97, 10, 98, 10, 99, 10], 7,
         .general, [31, 139, 8, 0, 0, 0, 0, 0, 2, 255, 97, 10, 98, 10, 99,
                    10],
         "learn_python.log", none, 3, false⟩ : LogFileRow) ∈ s2.rows ↔
        ¬ (2 : Nat) > 3) ∧
      (∀ r ∈ s2.rows,
        r ∈ [(⟨0, [31, 139, 8, 0, 0, 0, 0, 0, 2, 255, 97, 10, 98, 10], 7,
               .general, [31, 139, 8, 0, 0, 0, 0, 0, 2, 255, 97, 10, 98, 10],
               "learn_python.log.gz", none, 2, false⟩ : LogFileRow)] ∨
          r = ⟨1, [31, 139, 8, 0, 0, 0, 0, 0, 2, 255, 97, 10, 98, 10, 99,
                   10], 7, .general,
               [31, 139, 8, 0, 0, 0, 0, 0, 2, 255, 97, 10, 98, 10, 99, 10],
               "learn_python.log", none, 3, false⟩) :=
  merge_on_overlap_keeps_larger
    ⟨[⟨0, [31, 139, 8, 0, 0, 0, 0, 0, 2, 255, 97, 10, 98, 10], 7, .general,
       [31, 139, 8, 0, 0, 0, 0, 0, 2, 255, 97, 10, 98, 10],
       "learn_python.log.gz", none, 2, false⟩], [], 1⟩
    7 5 "learn_python.log" .general none none
    [31, 139, 8, 0, 0, 0, 0, 0, 2, 255, 97, 10, 98, 10, 99, 10]
    [97, 10, 98, 10] [97, 10, 98, 10, 99, 10]
    ⟨0, [31, 139, 8, 0, 0, 0, 0, 0, 2, 255, 97, 10, 98, 10], 7, .general,
     [31, 139, 8, 0, 0, 0, 0, 0, 2, 255, 97, 10, 98, 10],
     "learn_python.log.gz", none, 2, false⟩
    (by decide) (by decide) (by decide) (by decide) (by decide) (by decide)
    (by decide) (by decide) (by decide) (by decide) (by decide) (by decide)
    (by decide) (by decide) (by decide)
